import Mathlib

/-!
Verification of the Issue Tag Reviewer (`src/main.py`) against its
specification.  The persistence layer (sqlite table `issues`) is modelled
as a Lean list of records; pandas cells are `Option String` (None/NaN is
`none`); the wall-clock timestamp that `update_record` obtains from
`datetime.now().isoformat()` is passed as an explicit argument.
-/

namespace IssueTagReview

/-- One input row of the uploaded spreadsheet, after the UI has checked that
all required columns are present.  `issueTags` holds the eight cells
`IssueTag1` .. `IssueTag8` in slot order. -/
structure InputRow where
  source : Option String
  issue : Option String
  stakeholderTypeArray : Option String
  worksheetLabelArray : Option String
  issueTags : List (Option String)
  deriving DecidableEq, Repr

/-- One row of the persisted `issues` table: the imported columns plus
`record_id`, `reviewed_tags`, `tagging_notes`, `review_date`
(`main.py`, `init_db`). -/
structure IssueRecord where
  record_id : Nat
  source : Option String
  issue : Option String
  stakeholderTypeArray : Option String
  worksheetLabelArray : Option String
  issueTags : List (Option String)
  reviewed_tags : Option String
  tagging_notes : String
  review_date : Option String
  deriving DecidableEq, Repr

/-- The record produced for input row `r` at 1-based position `rid`
(`init_db`: review columns initialised to None / "" / None). -/
def mkRecord (rid : Nat) (r : InputRow) : IssueRecord :=
  { record_id := rid
    source := r.source
    issue := r.issue
    stakeholderTypeArray := r.stakeholderTypeArray
    worksheetLabelArray := r.worksheetLabelArray
    issueTags := r.issueTags
    reviewed_tags := none
    tagging_notes := ""
    review_date := none }

/-- Helper for `init_db`: numbers the rows starting at `k`
(`df['record_id'] = range(1, len(df) + 1)`). -/
def initRows (k : Nat) : List InputRow → List IssueRecord
  | [] => []
  | r :: rs => mkRecord k r :: initRows (k + 1) rs

/-- `init_db(df, filename)` (`main.py` lines 51-70): assigns
`record_id` = 1..N in input order and initialises the review columns. -/
def init_db (rows : List InputRow) : List IssueRecord :=
  initRows 1 rows

/-- Python truthiness-plus-sentinel test
`if filter_source and filter_source != "All"` (`load_data_from_db`):
`None` and the empty string are falsy, and `"All"` is excluded. -/
def filterActive : Option String → Bool
  | none => false
  | some v => if v = "" then false else if v = "All" then false else true

/-- The `source = ?` clause, appended only when the filter is active;
SQL equality with a NULL column is never true. -/
def sourceClause (fs : Option String) (r : IssueRecord) : Bool :=
  if filterActive fs then decide (r.source = fs) else true

/-- The `WorksheetLabelArray = ?` clause, appended only when active. -/
def labelClause (fl : Option String) (r : IssueRecord) : Bool :=
  if filterActive fl then decide (r.worksheetLabelArray = fl) else true

/-- `load_data_from_db(filename, filter_source, filter_label)`
(`main.py` lines 72-95): `SELECT * FROM issues WHERE 1=1` with the two
conditional equality clauses; rows come back in natural (insertion) order. -/
def load_data_from_db (db : List IssueRecord) (fs fl : Option String) :
    List IssueRecord :=
  db.filter (fun r => sourceClause fs r && labelClause fl r)

/-- `update_record(filename, record_id, reviewed_tags, tagging_notes)`
(`main.py` lines 97-112): `UPDATE issues SET reviewed_tags = ?,
tagging_notes = ?, review_date = ? WHERE record_id = ?`.  The timestamp
`ts` stands for `datetime.now().isoformat()`.  The Python function returns
nothing and never inspects `cursor.rowcount`; here the new table state is
returned because the embedding is pure. -/
def update_record (db : List IssueRecord) (rid : Nat) (tags notes ts : String) :
    List IssueRecord :=
  db.map (fun r =>
    if r.record_id = rid then
      { r with reviewed_tags := some tags, tagging_notes := notes,
               review_date := some ts }
    else r)

/-- The "Confirm Tags >>" handler (`main.py` lines 357-364): it calls
`update_record` and then unconditionally displays the success message
`st.success("Tags confirmed and saved.")`, never consulting an
affected-row count. -/
def confirmTags (db : List IssueRecord) (rid : Nat) (tags notes ts : String) :
    List IssueRecord × String :=
  (update_record db rid tags notes ts, "Tags confirmed and saved.")

/-- One recorded call to `update_record`, for stating trace invariants:
the targeted `record_id`, the two payload strings and the timestamp. -/
structure Update where
  rid : Nat
  tags : String
  notes : String
  ts : String
  deriving DecidableEq, Repr

/-- Applies a sequence of `update_record` calls to a table state. -/
def applyUpdates (db : List IssueRecord) : List Update → List IssueRecord
  | [] => db
  | u :: us => applyUpdates (update_record db u.rid u.tags u.notes u.ts) us

/-- The scan of `next_unreviewed` (`main.py` lines 307-317):
`for i in range(j, len(df_filtered))`, returning the first index whose
`review_date` is NaN/None; `l` is the suffix of the view starting at
index `j`. -/
def findNullFrom : List IssueRecord → Nat → Option Nat
  | [], _ => none
  | r :: rs, j => if r.review_date = none then some j else findNullFrom rs (j + 1)

/-- `next_unreviewed()` (`main.py` lines 307-317): scans indices
`i+1 .. N-1` of the filtered view for the first record with null
`review_date`; on success the navigation index becomes that position and
the flag is `true`; otherwise the index is unchanged and the flag is
`false` (the UI then shows "No more unreviewed records found below this
point."). -/
def next_unreviewed (view : List IssueRecord) (i : Nat) : Nat × Bool :=
  match findNullFrom (view.drop (i + 1)) (i + 1) with
  | some j => (j, true)
  | none => (i, false)

/-- `REQUIRED_COLUMNS` (`main.py` lines 28-32). -/
def REQUIRED_COLUMNS : List String :=
  ["source", "Issue", "StakeholderTypeArray", "WorksheetLabelArray",
   "IssueTag1", "IssueTag2", "IssueTag3", "IssueTag4",
   "IssueTag5", "IssueTag6", "IssueTag7", "IssueTag8"]

/-- `missing_cols = [c for c in REQUIRED_COLUMNS if c not in
df_preview.columns]` (`main.py` line 162). -/
def missing_cols (cols : List String) : List String :=
  REQUIRED_COLUMNS.filter (fun c => ¬ c ∈ cols)

/-- Outcome of the import flow of Tab 1: either the schema error shown by
`st.error` with the missing column names, or a created dataset. -/
inductive ImportOutcome where
  | schemaError (missing : List String)
  | imported (dbName : String)
  deriving DecidableEq, Repr

/-- The import flow of Tab 1 (`main.py` lines 162-177): when `missing_cols`
is non-empty the UI shows the error listing them and never offers the
button that imports, so no dataset is written; otherwise `init_db` writes
the dataset (`to_sql` with `if_exists='replace'` overwrites a same-named
one).
`store` maps dataset file names to table states; `cols` are the columns of
the uploaded sheet and `rows` its (typed) rows. -/
def importFlow (cols : List String) (rows : List InputRow)
    (store : List (String × List IssueRecord)) (dbName : String) :
    List (String × List IssueRecord) × ImportOutcome :=
  if missing_cols cols = [] then
    ((dbName, init_db rows) :: store.filter (fun p => ¬ p.1 = dbName),
     ImportOutcome.imported dbName)
  else
    (store, ImportOutcome.schemaError (missing_cols cols))

/-- A persisted dataset file as seen by the additive migration: its column
names and its rows (a row is one cell per column). -/
structure DbFile where
  cols : List String
  rows : List (List (Option String))
  deriving DecidableEq, Repr

/-- `ensure_schema_compatibility(db_path)` (`main.py` lines 39-49): probes
`SELECT review_date FROM issues LIMIT 1`, which raises exactly when the
column is absent, and in that case runs `ALTER TABLE issues ADD COLUMN
review_date TEXT`, which appends the column with NULL in every existing
row. -/
def ensure_schema_compatibility (d : DbFile) : DbFile :=
  if "review_date" ∈ d.cols then d
  else { cols := d.cols ++ ["review_date"],
         rows := d.rows.map (fun r => r ++ [none]) }

/-- First-match lookup of a dataset name in the catalog, mirroring file
existence tests (`os.path.exists`) and content access on the temp folder. -/
def lookupName {α : Type} : List (String × α) → String → Option α
  | [], _ => none
  | p :: ps, n => if p.1 = n then some p.2 else lookupName ps n

/-- The dataset catalog: the `.db` files of the temp folder (name paired
with table state) and the session-wide active pointer
(`st.session_state['active_db']`). -/
structure Catalog where
  files : List (String × List IssueRecord)
  active : Option String
  deriving DecidableEq, Repr

/-- Outcome of the rename flow: success, the `st.error("A file with that
name already exists.")` branch, or the caught `FileNotFoundError` that
`os.rename` raises when the source file is gone (shown as
`st.error(f"Error renaming: ...")`). -/
inductive RenameResult where
  | ok
  | alreadyExists
  | notFound
  deriving DecidableEq, Repr

/-- The rename flow (`main.py` lines 213-237): first checks
`os.path.exists(new_path)` and errors without touching anything; then
`os.rename(old_path, new_path)` — atomic on success, raising (caught and
surfaced) when the old file does not exist; on success, if the renamed
dataset was the active one the active pointer moves to the new name. -/
def renameDb (c : Catalog) (oldName newName : String) : Catalog × RenameResult :=
  if (lookupName c.files newName).isSome then
    (c, RenameResult.alreadyExists)
  else if (lookupName c.files oldName).isSome then
    ({ files := c.files.map (fun p => if p.1 = oldName then (newName, p.2) else p),
       active := if c.active = some oldName then some newName else c.active },
     RenameResult.ok)
  else
    (c, RenameResult.notFound)

/-- Python `str.strip()`: removes whitespace from both ends of a string. -/
def pyStrip (s : String) : String :=
  String.mk
    (((s.data.dropWhile Char.isWhitespace).reverse.dropWhile
        Char.isWhitespace).reverse)

/-- `combine_tags(row)` (`main.py` lines 509-515): walks slots
`IssueTag1` .. `IssueTag8`, keeps `str(t).strip()` whenever the cell is
not NaN and strips to a non-empty string, and joins with ", ". -/
def collectTags : List (Option String) → List String
  | [] => []
  | none :: ts => collectTags ts
  | some t :: ts =>
      if pyStrip t = "" then collectTags ts else pyStrip t :: collectTags ts

/-- `", ".join(tags)` over the collected slots (`main.py` line 515). -/
def combine_tags (tags : List (Option String)) : String :=
  String.intercalate ", " (collectTags tags)

/-- Stated from the spec's words for comparison with `combine_tags`: "the
non-empty values among `proposed_tags[1..8]`, trimmed, joined with ", "
in slot order, skipping empty/null slots" — null slots dropped, each value
trimmed, slots that are empty after trimming skipped. -/
def specCombinedTags (tags : List (Option String)) : String :=
  String.intercalate ", "
    (((tags.filterMap id).map pyStrip).filter (fun s => ¬ s = ""))

/-- A concrete uploaded row used to instantiate the theorems. -/
def sampleRow : InputRow :=
  { source := some "Webform"
    issue := some "Example issue text"
    stakeholderTypeArray := some "Consumer"
    worksheetLabelArray := some "Sheet1"
    issueTags := [some "Access", none, some "Evidence", none, none, none, none, none] }

/-- A second concrete uploaded row with a different source and label. -/
def sampleRow2 : InputRow :=
  { source := some "Email"
    issue := some "Second issue text"
    stakeholderTypeArray := some "Industry"
    worksheetLabelArray := some "Sheet2"
    issueTags := [some "Scheduling", none, none, none, none, none, none, none] }

theorem initRows_length (rows : List InputRow) (k : Nat) :
    (initRows k rows).length = rows.length := by
  induction rows generalizing k with
  | nil => rfl
  | cons r rs ih => simp [initRows, ih]

theorem initRows_getElem (rows : List InputRow) (k i : Nat) :
    (initRows k rows)[i]? = (rows[i]?).map (fun r => mkRecord (k + i) r) := by
  induction rows generalizing k i with
  | nil => simp [initRows]
  | cons r rs ih =>
    cases i with
    | zero => simp [initRows]
    | succ n =>
      simp only [initRows, List.getElem?_cons_succ, ih (k + 1) n]
      have harith : k + 1 + n = k + (n + 1) := by omega
      rw [harith]

theorem load_none_none (db : List IssueRecord) :
    load_data_from_db db none none = db := by
  rw [load_data_from_db]
  have hp : ∀ r ∈ db, (sourceClause none r && labelClause none r) = true := by
    intro r _
    simp [sourceClause, labelClause, filterActive]
  induction db with
  | nil => rfl
  | cons a as ih =>
    rw [List.filter_cons, if_pos (hp a (List.mem_cons_self a as))]
    rw [ih (fun r hr => hp r (List.mem_cons_of_mem a hr))]

/-- C4: importing N valid rows and querying with no filter returns exactly N
records; position i holds record_id i+1 with the input row's columns
unchanged and `reviewed_tags` = null, `tagging_notes` = "",
`review_date` = null. -/
theorem c4_create_query_roundtrip (rows : List InputRow) :
    load_data_from_db (init_db rows) none none = init_db rows ∧
    (init_db rows).length = rows.length ∧
    (∀ i : Nat, (init_db rows)[i]? = (rows[i]?).map (fun r => mkRecord (i + 1) r)) := by
  refine ⟨load_none_none (init_db rows), initRows_length rows 1, ?_⟩
  intro i
  rw [init_db, initRows_getElem]
  have harith : 1 + i = i + 1 := by omega
  rw [harith]

theorem filterActive_some_iff (v : String) :
    filterActive (some v) = true ↔ (¬ v = "" ∧ ¬ v = "All") := by
  by_cases h1 : v = ""
  · simp [filterActive, h1]
  · by_cases h2 : v = "All"
    · simp [filterActive, h1, h2]
    · simp [filterActive, h1, h2]

theorem sourceClause_eq_true_iff (fs : Option String) (r : IssueRecord) :
    sourceClause fs r = true ↔
      (∀ v : String, fs = some v → filterActive (some v) = true →
        r.source = some v) := by
  cases fs with
  | none => simp [sourceClause, filterActive]
  | some v =>
    by_cases h : filterActive (some v) = true
    · rw [sourceClause, if_pos h]
      simp only [decide_eq_true_eq]
      constructor
      · intro hs v2 hv2 _
        injection hv2 with he
        rw [← he]
        exact hs
      · intro hall
        exact hall v rfl h
    · rw [sourceClause, if_neg h]
      constructor
      · intro _ v2 hv2 hact
        injection hv2 with he
        rw [← he] at hact
        exact absurd hact h
      · intro _
        rfl

theorem labelClause_eq_true_iff (fl : Option String) (r : IssueRecord) :
    labelClause fl r = true ↔
      (∀ v : String, fl = some v → filterActive (some v) = true →
        r.worksheetLabelArray = some v) := by
  cases fl with
  | none => simp [labelClause, filterActive]
  | some v =>
    by_cases h : filterActive (some v) = true
    · rw [labelClause, if_pos h]
      simp only [decide_eq_true_eq]
      constructor
      · intro hs v2 hv2 _
        injection hv2 with he
        rw [← he]
        exact hs
      · intro hall
        exact hall v rfl h
    · rw [labelClause, if_neg h]
      constructor
      · intro _ v2 hv2 hact
        injection hv2 with he
        rw [← he] at hact
        exact absurd hact h
      · intro _
        rfl

/-- C5: `query` keeps exactly the records matching each set filter
component (all records when a component is unset), returns a sublist of
the stored table (so every filtered record also appears in the unfiltered
result, which is the whole table), and preserves record_id-ascending
order. -/
theorem c5_query_filter_semantics (db : List IssueRecord) (fs fl : Option String) :
    (∀ r : IssueRecord,
      r ∈ load_data_from_db db fs fl ↔
        (r ∈ db ∧
         (∀ v : String, fs = some v → filterActive (some v) = true →
           r.source = some v) ∧
         (∀ v : String, fl = some v → filterActive (some v) = true →
           r.worksheetLabelArray = some v))) ∧
    List.Sublist (load_data_from_db db fs fl) db ∧
    load_data_from_db db none none = db ∧
    (db.Pairwise (fun a b => a.record_id < b.record_id) →
      (load_data_from_db db fs fl).Pairwise
        (fun a b => a.record_id < b.record_id)) := by
  refine ⟨?_, List.filter_sublist db, load_none_none db, ?_⟩
  · intro r
    rw [load_data_from_db, List.mem_filter, Bool.and_eq_true,
        sourceClause_eq_true_iff, labelClause_eq_true_iff]
  · intro hp
    exact hp.sublist (List.filter_sublist db)

/-- C5 witness: on a concrete two-record table sorted by record_id, the
filtered view is still sorted by record_id. -/
theorem c5_query_filter_semantics_witness :
    (load_data_from_db (init_db [sampleRow, sampleRow2]) (some "Webform") none).Pairwise
      (fun a b => a.record_id < b.record_id) :=
  (c5_query_filter_semantics (init_db [sampleRow, sampleRow2])
    (some "Webform") none).2.2.2 (by decide)

/-- C10: the sentinel "All" and the falsy values None/"" disable a filter
component, so the query returns all rows; consequently a record whose
`source` cell is literally "All" (or empty) is excluded from every result
produced by an active source filter — it can never be isolated by
exact-match filtering. -/
theorem c10_all_sentinel (db : List IssueRecord) (fs fl : Option String)
    (v : String) (r : IssueRecord) :
    load_data_from_db db (some "All") fl = load_data_from_db db none fl ∧
    load_data_from_db db (some "") fl = load_data_from_db db none fl ∧
    load_data_from_db db fs (some "All") = load_data_from_db db fs none ∧
    load_data_from_db db fs (some "") = load_data_from_db db fs none ∧
    load_data_from_db db (some "All") (some "All") = db ∧
    (filterActive (some v) = true →
      (r.source = some "All" ∨ r.source = some "") →
      ¬ r ∈ load_data_from_db db (some v) fl) := by
  have hsAll : ∀ r2 : IssueRecord, sourceClause (some "All") r2 = sourceClause none r2 := by
    intro r2
    rw [sourceClause, sourceClause, if_neg (by decide), if_neg (by decide)]
  have hsEmpty : ∀ r2 : IssueRecord, sourceClause (some "") r2 = sourceClause none r2 := by
    intro r2
    rw [sourceClause, sourceClause, if_neg (by decide), if_neg (by decide)]
  have hlAll : ∀ r2 : IssueRecord, labelClause (some "All") r2 = labelClause none r2 := by
    intro r2
    rw [labelClause, labelClause, if_neg (by decide), if_neg (by decide)]
  have hlEmpty : ∀ r2 : IssueRecord, labelClause (some "") r2 = labelClause none r2 := by
    intro r2
    rw [labelClause, labelClause, if_neg (by decide), if_neg (by decide)]
  refine ⟨?_, ?_, ?_, ?_, ?_, ?_⟩
  · rw [load_data_from_db, load_data_from_db]
    exact List.filter_congr (fun r2 _ => by rw [hsAll r2])
  · rw [load_data_from_db, load_data_from_db]
    exact List.filter_congr (fun r2 _ => by rw [hsEmpty r2])
  · rw [load_data_from_db, load_data_from_db]
    exact List.filter_congr (fun r2 _ => by rw [hlAll r2])
  · rw [load_data_from_db, load_data_from_db]
    exact List.filter_congr (fun r2 _ => by rw [hlEmpty r2])
  · rw [load_data_from_db]
    have hp : ∀ r2 ∈ db,
        (sourceClause (some "All") r2 && labelClause (some "All") r2) = true := by
      intro r2 _
      rw [hsAll r2, hlAll r2]
      simp [sourceClause, labelClause, filterActive]
    calc db.filter (fun r2 => sourceClause (some "All") r2 && labelClause (some "All") r2)
        = db.filter (fun r2 => sourceClause none r2 && labelClause none r2) :=
          List.filter_congr (fun r2 _ => by rw [hsAll r2, hlAll r2])
      _ = db := load_none_none db
  · intro hact hsrc hmem
    rw [load_data_from_db, List.mem_filter, Bool.and_eq_true] at hmem
    have hs := (sourceClause_eq_true_iff (some v) r).mp hmem.2.1 v rfl hact
    have hv := (filterActive_some_iff v).mp hact
    cases hsrc with
    | inl h1 =>
      rw [h1] at hs
      injection hs with he
      exact hv.2 he.symm
    | inr h1 =>
      rw [h1] at hs
      injection hs with he
      exact hv.1 he.symm

/-- C10 witness: a record whose source cell is literally "All" is not in
the result of the active filter source = "Webform". -/
theorem c10_all_sentinel_witness :
    ¬ { mkRecord 1 sampleRow with source := some "All" } ∈
      load_data_from_db
        [{ mkRecord 1 sampleRow with source := some "All" }] (some "Webform") none :=
  (c10_all_sentinel [{ mkRecord 1 sampleRow with source := some "All" }]
      none none "Webform" { mkRecord 1 sampleRow with source := some "All" }).2.2.2.2.2
    (by decide) (Or.inl rfl)

/-- C1 counterexample: the claim says the zero-rows-affected condition of
`update` is surfaced so the caller can distinguish it from a successful
one-row update.  In the code `update_record` never reads
`cursor.rowcount` and returns nothing, and the confirm handler
unconditionally reports success: confirming record_id 99 against a table
whose only record_id is 1 changes no row yet produces exactly the
caller-visible success outcome, identical to the message of a real
one-row update. -/
theorem c1_zero_rows_not_surfaced_counterexample :
    confirmTags [mkRecord 1 sampleRow] 99 "Access" "note" "2026-01-01T00:00:00" =
      ([mkRecord 1 sampleRow], "Tags confirmed and saved.") ∧
    (confirmTags [mkRecord 1 sampleRow] 99 "Access" "note" "2026-01-01T00:00:00").2 =
      (confirmTags [mkRecord 1 sampleRow] 1 "Access" "note" "2026-01-01T00:00:00").2 := by
  constructor
  · rfl
  · rfl

/-- C1 (amended): `update` on a record_id absent from the dataset affects
zero rows and alters no existing row, but the zero-rows-affected condition
is not surfaced: `update_record` checks no affected-row count and the
confirm caller reports the same success message as for a one-row update. -/
theorem c1_update_nonexistent_silent (db : List IssueRecord) (rid : Nat)
    (t n ts : String) (h : ∀ r ∈ db, ¬ r.record_id = rid) :
    update_record db rid t n ts = db ∧
    confirmTags db rid t n ts = (db, "Tags confirmed and saved.") := by
  have h1 : update_record db rid t n ts = db := by
    rw [update_record]
    have : ∀ r ∈ db,
        (if r.record_id = rid then
          { r with reviewed_tags := some t, tagging_notes := n,
                   review_date := some ts } else r) = r := by
      intro r hr
      rw [if_neg (h r hr)]
    induction db with
    | nil => rfl
    | cons a as ih =>
      rw [List.map_cons, this a (List.mem_cons_self a as),
          ih (fun r hr => h r (List.mem_cons_of_mem a hr))
             (fun r hr => this r (List.mem_cons_of_mem a hr))]
  exact ⟨h1, by rw [confirmTags, h1]⟩

/-- C1 witness: the amended statement at a concrete one-record table and
the absent record_id 99. -/
theorem c1_update_nonexistent_silent_witness :
    update_record [mkRecord 1 sampleRow] 99 "Access" "note" "t0" =
      [mkRecord 1 sampleRow] ∧
    confirmTags [mkRecord 1 sampleRow] 99 "Access" "note" "t0" =
      ([mkRecord 1 sampleRow], "Tags confirmed and saved.") :=
  c1_update_nonexistent_silent [mkRecord 1 sampleRow] 99 "Access" "note" "t0"
    (by decide)

/-- C2: when at least one required column is absent from the uploaded
sheet, the import flow stops with the schema error listing exactly the
missing required column names, and the dataset store is unchanged (no
dataset is written). -/
theorem c2_import_missing_columns (cols : List String) (rows : List InputRow)
    (store : List (String × List IssueRecord)) (dbName : String)
    (h : ∃ c ∈ REQUIRED_COLUMNS, ¬ c ∈ cols) :
    importFlow cols rows store dbName =
      (store, ImportOutcome.schemaError (missing_cols cols)) ∧
    ¬ missing_cols cols = [] ∧
    (∀ c : String, c ∈ missing_cols cols ↔ (c ∈ REQUIRED_COLUMNS ∧ ¬ c ∈ cols)) := by
  have hchar : ∀ c : String,
      c ∈ missing_cols cols ↔ (c ∈ REQUIRED_COLUMNS ∧ ¬ c ∈ cols) := by
    intro c
    rw [missing_cols, List.mem_filter]
    simp
  have hm : ¬ missing_cols cols = [] := by
    obtain ⟨c, hc, hnc⟩ := h
    intro he
    have hmem : c ∈ missing_cols cols := (hchar c).mpr ⟨hc, hnc⟩
    rw [he] at hmem
    cases hmem
  exact ⟨by rw [importFlow, if_neg hm], hm, hchar⟩

/-- C2 witness: a sheet providing every required column except
`IssueTag8` is rejected with exactly that column listed, and the store
(here holding one existing dataset) is untouched. -/
theorem c2_import_missing_columns_witness :
    importFlow
      ["source", "Issue", "StakeholderTypeArray", "WorksheetLabelArray",
       "IssueTag1", "IssueTag2", "IssueTag3", "IssueTag4",
       "IssueTag5", "IssueTag6", "IssueTag7"]
      [sampleRow] [("old.db", init_db [sampleRow2])] "new.db" =
      ([("old.db", init_db [sampleRow2])],
        ImportOutcome.schemaError ["IssueTag8"]) ∧
    "IssueTag8" ∈ missing_cols
      ["source", "Issue", "StakeholderTypeArray", "WorksheetLabelArray",
       "IssueTag1", "IssueTag2", "IssueTag3", "IssueTag4",
       "IssueTag5", "IssueTag6", "IssueTag7"] := by
  have h := c2_import_missing_columns
    ["source", "Issue", "StakeholderTypeArray", "WorksheetLabelArray",
     "IssueTag1", "IssueTag2", "IssueTag3", "IssueTag4",
     "IssueTag5", "IssueTag6", "IssueTag7"]
    [sampleRow] [("old.db", init_db [sampleRow2])] "new.db"
    ⟨"IssueTag8", by decide, by decide⟩
  refine ⟨?_, ((h.2.2 "IssueTag8").mpr (by decide))⟩
  have hcols : missing_cols
      ["source", "Issue", "StakeholderTypeArray", "WorksheetLabelArray",
       "IssueTag1", "IssueTag2", "IssueTag3", "IssueTag4",
       "IssueTag5", "IssueTag6", "IssueTag7"] = ["IssueTag8"] := by decide
  rw [← hcols]
  exact h.1

/-- C7: the additive migration is idempotent and safe on every open:
after one call the `review_date` column exists, a second call changes
nothing, and a dataset that already has the column is left unchanged. -/
theorem c7_migrate_idempotent (d : DbFile) :
    "review_date" ∈ (ensure_schema_compatibility d).cols ∧
    ensure_schema_compatibility (ensure_schema_compatibility d) =
      ensure_schema_compatibility d ∧
    ("review_date" ∈ d.cols → ensure_schema_compatibility d = d) := by
  by_cases h : "review_date" ∈ d.cols
  · have h1 : ensure_schema_compatibility d = d := by
      rw [ensure_schema_compatibility, if_pos h]
    refine ⟨by rw [h1]; exact h, ?_, fun _ => h1⟩
    rw [h1, h1]
  · have h1 : ensure_schema_compatibility d =
        { cols := d.cols ++ ["review_date"],
          rows := d.rows.map (fun r => r ++ [none]) } := by
      rw [ensure_schema_compatibility, if_neg h]
    have hmem : "review_date" ∈ (ensure_schema_compatibility d).cols := by
      rw [h1]
      exact List.mem_append_right d.cols (List.mem_singleton.mpr rfl)
    refine ⟨hmem, ?_, fun hc => absurd hc h⟩
    rw [ensure_schema_compatibility, if_pos hmem]

/-- C7 witness: migrating a legacy one-column dataset adds the column; a
dataset that already carries `review_date` is returned unchanged. -/
theorem c7_migrate_idempotent_witness :
    ensure_schema_compatibility
        { cols := ["source", "review_date"], rows := [] } =
      { cols := ["source", "review_date"], rows := [] } :=
  (c7_migrate_idempotent { cols := ["source", "review_date"], rows := [] }).2.2
    (by decide)

theorem collectTags_eq_spec (tags : List (Option String)) :
    collectTags tags =
      ((tags.filterMap id).map pyStrip).filter (fun s => ¬ s = "") := by
  induction tags with
  | nil => rfl
  | cons t ts ih =>
    cases t with
    | none => simpa [collectTags] using ih
    | some v =>
      by_cases hv : pyStrip v = ""
      · simp [collectTags, hv, ih]
      · simp [collectTags, hv, ih]

/-- C9: the derived combined-tags column of the CSV export equals the
spec's description — null slots dropped, each remaining value trimmed,
slots empty after trimming skipped, the rest joined with ", " in slot
order — shown in general and on the spec's example rows (with an empty
slot, with a null slot, and with whitespace needing trimming). -/
theorem c9_combine_tags_spec :
    (∀ tags : List (Option String), combine_tags tags = specCombinedTags tags) ∧
    combine_tags
      [some "Access", some "", some "Evidence", none, none, none, none, none] =
      "Access, Evidence" ∧
    combine_tags
      [some "Access", none, some "Evidence", none, none, none, none, none] =
      "Access, Evidence" ∧
    combine_tags
      [some " Access ", some "  ", some "Evidence", none, none, none, none, none] =
      "Access, Evidence" := by
  refine ⟨?_, by decide, by decide, by decide⟩
  intro tags
  rw [combine_tags, specCombinedTags, collectTags_eq_spec]

theorem findNullFrom_none_iff (l : List IssueRecord) (s : Nat) :
    findNullFrom l s = none ↔
      ∀ (t : Nat) (r : IssueRecord), l[t]? = some r → ¬ r.review_date = none := by
  induction l generalizing s with
  | nil => simp [findNullFrom]
  | cons a as ih =>
    by_cases h : a.review_date = none
    · simp only [findNullFrom, if_pos h]
      constructor
      · intro hc
        cases hc
      · intro hall
        exact absurd h (hall 0 a (by simp))
    · simp only [findNullFrom, if_neg h]
      rw [ih (s + 1)]
      constructor
      · intro hall t r ht
        cases t with
        | zero =>
          rw [List.getElem?_cons_zero] at ht
          injection ht with he
          rw [← he]
          exact h
        | succ n =>
          rw [List.getElem?_cons_succ] at ht
          exact hall n r ht
      · intro hall t r ht
        exact hall (t + 1) r (by rw [List.getElem?_cons_succ]; exact ht)

theorem findNullFrom_some_spec (l : List IssueRecord) (s j : Nat)
    (h : findNullFrom l s = some j) :
    s ≤ j ∧
    (∃ r : IssueRecord, l[j - s]? = some r ∧ r.review_date = none) ∧
    (∀ (t : Nat) (r : IssueRecord), s + t < j → l[t]? = some r →
      ¬ r.review_date = none) := by
  induction l generalizing s j with
  | nil => cases h
  | cons a as ih =>
    by_cases ha : a.review_date = none
    · simp only [findNullFrom, if_pos ha] at h
      injection h with hj
      rw [← hj]
      refine ⟨Nat.le_refl s, ⟨a, by simp, ha⟩, ?_⟩
      intro t r ht _
      omega
    · simp only [findNullFrom, if_neg ha] at h
      obtain ⟨hle, ⟨r0, hr0, hr0n⟩, hbefore⟩ := ih (s + 1) j h
      refine ⟨by omega, ⟨r0, ?_, hr0n⟩, ?_⟩
      · have harith : j - s = (j - (s + 1)) + 1 := by omega
        rw [harith, List.getElem?_cons_succ]
        exact hr0
      · intro t r ht hget
        cases t with
        | zero =>
          rw [List.getElem?_cons_zero] at hget
          injection hget with he
          rw [← he]
          exact ha
        | succ n =>
          rw [List.getElem?_cons_succ] at hget
          exact hbefore n r (by omega) hget

/-- C6: `next_unreviewed` scans strictly forward from i+1: when the flag
is true the new index is a strictly later in-range position holding the
first record with null `review_date` (everything strictly between is
reviewed, and the scan never wraps to the start); when the flag is false
the index is unchanged and every record strictly after position i is
reviewed — the caller is informed via the flag driving the "no more
unreviewed records" message. -/
theorem c6_next_unreviewed_forward_scan (view : List IssueRecord) (i : Nat) :
    ((next_unreviewed view i).2 = true →
      i < (next_unreviewed view i).1 ∧
      (∃ r : IssueRecord,
        view[(next_unreviewed view i).1]? = some r ∧ r.review_date = none) ∧
      (∀ (k : Nat) (r : IssueRecord), i < k → k < (next_unreviewed view i).1 →
        view[k]? = some r → ¬ r.review_date = none)) ∧
    ((next_unreviewed view i).2 = false →
      (next_unreviewed view i).1 = i ∧
      (∀ (k : Nat) (r : IssueRecord), i < k → view[k]? = some r →
        ¬ r.review_date = none)) := by
  have hdropAt : ∀ k : Nat, i + 1 ≤ k →
      (view.drop (i + 1))[k - (i + 1)]? = view[k]? := by
    intro k hk
    have hdrop := List.getElem?_drop view (i + 1) (k - (i + 1))
    have harith : i + 1 + (k - (i + 1)) = k := by omega
    rw [harith] at hdrop
    exact hdrop
  cases hm : findNullFrom (view.drop (i + 1)) (i + 1) with
  | none =>
    have hnu : next_unreviewed view i = (i, false) := by
      unfold next_unreviewed
      rw [hm]
    rw [hnu]
    constructor
    · intro hc
      cases hc
    · intro _
      refine ⟨rfl, ?_⟩
      intro k r hk hget
      have hall := (findNullFrom_none_iff (view.drop (i + 1)) (i + 1)).mp hm
      refine hall (k - (i + 1)) r ?_
      rw [hdropAt k (by omega)]
      exact hget
  | some j =>
    have hnu : next_unreviewed view i = (j, true) := by
      unfold next_unreviewed
      rw [hm]
    rw [hnu]
    obtain ⟨hle, ⟨r0, hr0, hr0n⟩, hbefore⟩ :=
      findNullFrom_some_spec (view.drop (i + 1)) (i + 1) j hm
    constructor
    · intro _
      refine ⟨by omega, ⟨r0, ?_, hr0n⟩, ?_⟩
      · show view[j]? = some r0
        rw [← hdropAt j hle]
        exact hr0
      · intro k r hk hkj hget
        refine hbefore (k - (i + 1)) r (by omega) ?_
        rw [hdropAt k (by omega)]
        exact hget
    · intro hc
      cases hc

/-- C6 witness: in a five-record view where positions 0..3 are reviewed
and position 4 is not, the scan from index 2 lands on index 4 with the
found flag set, and positions 3 (strictly between) is reviewed; from
index 4 nothing is found and the index is unchanged. -/
theorem c6_next_unreviewed_forward_scan_witness :
    2 < (next_unreviewed
      [{ mkRecord 1 sampleRow with review_date := some "t1" },
       { mkRecord 2 sampleRow with review_date := some "t2" },
       { mkRecord 3 sampleRow with review_date := some "t3" },
       { mkRecord 4 sampleRow with review_date := some "t4" },
       mkRecord 5 sampleRow] 2).1 :=
  ((c6_next_unreviewed_forward_scan
      [{ mkRecord 1 sampleRow with review_date := some "t1" },
       { mkRecord 2 sampleRow with review_date := some "t2" },
       { mkRecord 3 sampleRow with review_date := some "t3" },
       { mkRecord 4 sampleRow with review_date := some "t4" },
       mkRecord 5 sampleRow] 2).1 (by decide)).1

theorem mem_initRows_bound (k : Nat) (rows : List InputRow) :
    ∀ r ∈ initRows k rows, r.review_date = none ∧ k ≤ r.record_id := by
  induction rows generalizing k with
  | nil =>
    intro r hr
    cases hr
  | cons x xs ih =>
    intro r hr
    rw [initRows, List.mem_cons] at hr
    cases hr with
    | inl h =>
      rw [h]
      exact ⟨rfl, Nat.le_refl k⟩
    | inr h =>
      have hb := ih (k + 1) r h
      exact ⟨hb.1, by omega⟩

theorem initRows_pairwise (k : Nat) (rows : List InputRow) :
    (initRows k rows).Pairwise (fun a b => a.record_id < b.record_id) := by
  induction rows generalizing k with
  | nil => exact List.Pairwise.nil
  | cons x xs ih =>
    rw [initRows, List.pairwise_cons]
    refine ⟨?_, ih (k + 1)⟩
    intro b hb
    have hble := (mem_initRows_bound (k + 1) xs b hb).2
    have hk : (mkRecord k x).record_id = k := rfl
    omega

theorem update_record_pairwise (db : List IssueRecord) (rid : Nat)
    (t n ts : String)
    (h : db.Pairwise (fun a b => a.record_id < b.record_id)) :
    (update_record db rid t n ts).Pairwise
      (fun a b => a.record_id < b.record_id) := by
  rw [update_record]
  refine List.Pairwise.map _ ?_ h
  intro a b hab
  by_cases hc1 : a.record_id = rid <;> by_cases hc2 : b.record_id = rid <;>
    simp [hc1, hc2, hab] <;> omega

theorem applyUpdates_pairwise (us : List Update) (db : List IssueRecord)
    (h : db.Pairwise (fun a b => a.record_id < b.record_id)) :
    (applyUpdates db us).Pairwise (fun a b => a.record_id < b.record_id) := by
  induction us generalizing db with
  | nil => exact h
  | cons u us ih =>
    exact ih _ (update_record_pairwise db u.rid u.tags u.notes u.ts h)

theorem applyUpdates_review_none (us : List Update) (db : List IssueRecord)
    (P : Nat → Prop)
    (h0 : ∀ r ∈ db, (r.review_date = none ↔ P r.record_id)) :
    ∀ r ∈ applyUpdates db us,
      (r.review_date = none ↔
        (P r.record_id ∧ ¬ r.record_id ∈ us.map Update.rid)) := by
  induction us generalizing db P with
  | nil =>
    intro r hr
    simpa using h0 r hr
  | cons u us ih =>
    intro r hr
    rw [applyUpdates] at hr
    have step : ∀ r2 ∈ update_record db u.rid u.tags u.notes u.ts,
        (r2.review_date = none ↔ (P r2.record_id ∧ ¬ r2.record_id = u.rid)) := by
      intro r2 hr2
      rw [update_record, List.mem_map] at hr2
      obtain ⟨r0, hr0, heq⟩ := hr2
      by_cases hc : r0.record_id = u.rid
      · rw [← heq, if_pos hc]
        constructor
        · intro habs
          simp at habs
        · intro hand
          exact absurd hc hand.2
      · rw [← heq, if_neg hc]
        rw [h0 r0 hr0]
        constructor
        · intro hp
          exact ⟨hp, hc⟩
        · intro hand
          exact hand.1
    have hrec := ih (update_record db u.rid u.tags u.notes u.ts)
      (fun id => P id ∧ ¬ id = u.rid) step r hr
    rw [hrec]
    simp only [List.map_cons, List.mem_cons]
    tauto

theorem filter_id_eq_nil (db : List IssueRecord) (rid : Nat)
    (h : ∀ r ∈ db, ¬ r.record_id = rid) :
    db.filter (fun r => r.record_id = rid) = [] := by
  induction db with
  | nil => rfl
  | cons a as ih =>
    rw [List.filter_cons, if_neg (by simp [h a (List.mem_cons_self a as)])]
    exact ih (fun r hr => h r (List.mem_cons_of_mem a hr))

theorem count_id_le_one (db : List IssueRecord) (rid : Nat)
    (h : db.Pairwise (fun a b => a.record_id < b.record_id)) :
    (db.filter (fun r => r.record_id = rid)).length ≤ 1 := by
  induction db with
  | nil => simp
  | cons a as ih =>
    rw [List.pairwise_cons] at h
    by_cases ha : a.record_id = rid
    · rw [List.filter_cons, if_pos (by simp [ha])]
      have hnil : as.filter (fun r => r.record_id = rid) = [] := by
        apply filter_id_eq_nil
        intro r hr heq
        have hlt := h.1 r hr
        omega
      rw [hnil]
      simp
    · rw [List.filter_cons, if_neg (by simp [ha])]
      exact ih h.2

/-- C3: over every table reachable by importing rows and then running any
sequence of confirmations, `review_date` is null exactly on the records
never targeted by a confirmation; each `record_id` occurs at most once
(exactly once when present), so an `update` call rewrites `reviewed_tags`,
`tagging_notes` and `review_date` together at the unique matching
position, leaves every other position untouched, and the only other
record-level operation, `query`, returns records of the table unchanged. -/
theorem c3_review_confirmation_invariant (rows : List InputRow)
    (us : List Update) (rid : Nat) (t n ts : String) (fs fl : Option String) :
    (∀ r ∈ applyUpdates (init_db rows) us,
      (r.review_date = none ↔ ¬ r.record_id ∈ us.map Update.rid)) ∧
    ((applyUpdates (init_db rows) us).filter
        (fun r => r.record_id = rid)).length ≤ 1 ∧
    ((∃ r, r ∈ applyUpdates (init_db rows) us ∧ r.record_id = rid) →
      ((applyUpdates (init_db rows) us).filter
          (fun r => r.record_id = rid)).length = 1) ∧
    (∀ (i : Nat) (r : IssueRecord),
      (applyUpdates (init_db rows) us)[i]? = some r →
      ((¬ r.record_id = rid →
        (update_record (applyUpdates (init_db rows) us) rid t n ts)[i]? =
          some r) ∧
       (r.record_id = rid →
        (update_record (applyUpdates (init_db rows) us) rid t n ts)[i]? =
          some { r with reviewed_tags := some t, tagging_notes := n,
                        review_date := some ts }))) ∧
    (∀ r ∈ load_data_from_db (applyUpdates (init_db rows) us) fs fl,
      r ∈ applyUpdates (init_db rows) us) := by
  have hpair : (applyUpdates (init_db rows) us).Pairwise
      (fun a b => a.record_id < b.record_id) :=
    applyUpdates_pairwise us (init_db rows) (initRows_pairwise 1 rows)
  have hle := count_id_le_one (applyUpdates (init_db rows) us) rid hpair
  refine ⟨?_, hle, ?_, ?_, ?_⟩
  · intro r hr
    have h0 : ∀ r2 ∈ init_db rows, (r2.review_date = none ↔ True) := by
      intro r2 hr2
      simp [(mem_initRows_bound 1 rows r2 hr2).1]
    have := applyUpdates_review_none us (init_db rows) (fun _ => True) h0 r hr
    simpa using this
  · intro hex
    obtain ⟨r, hr, heq⟩ := hex
    have hmem : r ∈ (applyUpdates (init_db rows) us).filter
        (fun r2 => r2.record_id = rid) :=
      List.mem_filter.mpr ⟨hr, by simp [heq]⟩
    have hpos := List.length_pos_of_mem hmem
    omega
  · intro i r hget
    constructor
    · intro hc
      rw [update_record, List.getElem?_map, hget]
      simp [hc]
    · intro hc
      rw [update_record, List.getElem?_map, hget]
      simp [hc]
  · intro r hr
    exact (List.mem_filter.mp hr).1

/-- A concrete confirmation of record 1. -/
def sampleUpdate : Update :=
  { rid := 1, tags := "Access", notes := "", ts := "t1" }

/-- The record of `sampleRow` after `sampleUpdate` has been applied. -/
def sampleConfirmed : IssueRecord :=
  { mkRecord 1 sampleRow with
    reviewed_tags := some "Access", tagging_notes := "",
    review_date := some "t1" }

/-- C3 witness: after importing two rows and confirming record 1, the
table holds exactly one record with record_id 1. -/
theorem c3_review_confirmation_invariant_witness :
    ((applyUpdates (init_db [sampleRow, sampleRow2]) [sampleUpdate]).filter
      (fun r => r.record_id = 1)).length = 1 :=
  (c3_review_confirmation_invariant [sampleRow, sampleRow2] [sampleUpdate]
      1 "x" "y" "z" none none).2.2.1
    ⟨sampleConfirmed, by decide, by decide⟩

theorem lookupName_map_rename_found {α : Type} (files : List (String × α))
    (oldName newName : String) (h : lookupName files newName = none) :
    lookupName
        (files.map (fun p => if p.1 = oldName then (newName, p.2) else p))
        newName =
      lookupName files oldName := by
  induction files with
  | nil => rfl
  | cons p ps ih =>
    by_cases hn : p.1 = newName
    · rw [lookupName, if_pos hn] at h
      cases h
    · rw [lookupName, if_neg hn] at h
      by_cases hp : p.1 = oldName
      · simp [lookupName, hp]
      · simp [lookupName, hp, hn, ih h]

theorem lookupName_map_rename_gone {α : Type} (files : List (String × α))
    (oldName newName : String) (hne : ¬ oldName = newName) :
    lookupName
        (files.map (fun p => if p.1 = oldName then (newName, p.2) else p))
        oldName = none := by
  have hne2 : ¬ newName = oldName := fun he => hne he.symm
  induction files with
  | nil => rfl
  | cons p ps ih =>
    by_cases hp : p.1 = oldName
    · simp [lookupName, hp, hne2, ih]
    · simp [lookupName, hp, ih]

theorem lookupName_map_rename_other {α : Type} (files : List (String × α))
    (oldName newName n2 : String) (h1 : ¬ n2 = oldName) (h2 : ¬ n2 = newName) :
    lookupName
        (files.map (fun p => if p.1 = oldName then (newName, p.2) else p))
        n2 =
      lookupName files n2 := by
  have h1s : ¬ oldName = n2 := fun he => h1 he.symm
  have h2s : ¬ newName = n2 := fun he => h2 he.symm
  induction files with
  | nil => rfl
  | cons p ps ih =>
    by_cases hp : p.1 = oldName
    · simp [lookupName, hp, h1s, h2s, ih]
    · simp [lookupName, hp, ih]

/-- C8: rename fails with the already-exists error when the target name is
taken and with the caught not-found error when the source dataset is
missing, leaving the catalog (all dataset contents and the active pointer)
unchanged in both cases; on success the dataset's content moves atomically
from the old name to the new one, the old name is gone, every other
dataset is untouched, and the active pointer follows the rename exactly
when it pointed at the renamed dataset. -/
theorem c8_rename_catalog (c : Catalog) (oldName newName : String) :
    ((lookupName c.files newName).isSome = true →
      renameDb c oldName newName = (c, RenameResult.alreadyExists)) ∧
    (lookupName c.files newName = none → lookupName c.files oldName = none →
      renameDb c oldName newName = (c, RenameResult.notFound)) ∧
    (lookupName c.files newName = none →
      (lookupName c.files oldName).isSome = true →
      ((renameDb c oldName newName).2 = RenameResult.ok ∧
       lookupName (renameDb c oldName newName).1.files newName =
         lookupName c.files oldName ∧
       lookupName (renameDb c oldName newName).1.files oldName = none ∧
       (∀ n2 : String, ¬ n2 = oldName → ¬ n2 = newName →
         lookupName (renameDb c oldName newName).1.files n2 =
           lookupName c.files n2) ∧
       (renameDb c oldName newName).1.active =
         (if c.active = some oldName then some newName else c.active))) := by
  refine ⟨?_, ?_, ?_⟩
  · intro h
    rw [renameDb, if_pos h]
  · intro h1 h2
    rw [renameDb, if_neg (by simp [h1]), if_neg (by simp [h2])]
  · intro h1 h2
    have hne : ¬ oldName = newName := by
      intro he
      rw [he, h1] at h2
      cases h2
    have hr : renameDb c oldName newName =
        ({ files := c.files.map
             (fun p => if p.1 = oldName then (newName, p.2) else p),
           active := if c.active = some oldName then some newName
             else c.active },
         RenameResult.ok) := by
      rw [renameDb, if_neg (by simp [h1]), if_pos h2]
    rw [hr]
    exact ⟨rfl,
      lookupName_map_rename_found c.files oldName newName h1,
      lookupName_map_rename_gone c.files oldName newName hne,
      fun n2 ha hb =>
        lookupName_map_rename_other c.files oldName newName n2 ha hb,
      rfl⟩

/-- C8 witness: renaming the active dataset "a.db" to the fresh name
"b.db" succeeds and moves the active pointer to "b.db". -/
theorem c8_rename_catalog_witness :
    (renameDb { files := [("a.db", init_db [sampleRow])], active := some "a.db" }
        "a.db" "b.db").1.active = some "b.db" := by
  have h := (c8_rename_catalog
      { files := [("a.db", init_db [sampleRow])], active := some "a.db" }
      "a.db" "b.db").2.2 (by decide) (by decide)
  rw [h.2.2.2.2]
  decide

end IssueTagReview
